import Mathlib

/-!
Verification of the email/Discord verification service.

The embedding models the stored user table as a list of records, time as
integer seconds since the epoch, and the pseudo-random generator as an
explicit list of draw outcomes.  Each endpoint of
`src/app/routes/users.py`, the helpers of `src/utils/helpers.py`, and the
relevant handlers of `src/discord_bot/bot.py` become pure Lean functions
on these data.
-/

namespace DiscordBot

/-- One row of the `users` table (`src/models/user.py`).  Timestamps are
integer seconds since the epoch. -/
structure StoredUser where
  id : Nat
  email : String
  name : String
  college : String
  branch : String
  year : String
  token : String
  is_verified : Bool
  token_created_at : Int
  created_at : Int
  updated_at : Int
  deriving Repr, DecidableEq

/-- The alphabet used by `generate_token`: `string.ascii_uppercase + string.digits`. -/
def TOKEN_ALPHABET : List Char :=
  "ABCDEFGHIJKLMNOPQRSTUVWXYZ0123456789".toList

/-- Default of the `TOKEN_EXPIRY_DAYS` environment variable in
`is_token_expired` (`src/utils/helpers.py`). -/
def TOKEN_EXPIRY_DAYS_DEFAULT : Nat := 7

/-- Default length argument of `generate_token`. -/
def TOKEN_LENGTH_DEFAULT : Nat := 6

/-- `generate_token(length)` from `src/utils/helpers.py`: `length`
independent uniform draws from `TOKEN_ALPHABET`, joined into a string.
`rng` lists the outcomes of the successive `random.choice` calls as
indices; a draw beyond the listed outcomes defaults to index `0`. -/
def generate_token (rng : List Nat) (len : Nat) : String :=
  String.mk ((List.range len).map (fun i => TOKEN_ALPHABET.getD (rng.getD i 0 % 36) 'A'))

/-- `is_token_expired(token_created_at, expiry_days)` from
`src/utils/helpers.py`: true when the current time is strictly past
`token_created_at + expiry_days` days (86400 seconds per day). -/
def is_token_expired (token_created_at now : Int) (expiry_days : Nat) : Bool :=
  decide (token_created_at + (expiry_days : Int) * 86400 < now)

/-- `mask_token(token)` from `src/utils/helpers.py`. -/
def mask_token (token : String) : String :=
  if token.length ≤ 2 then token
  else String.mk (token.data.take 1 ++ List.replicate (token.length - 2) '*'
        ++ token.data.drop (token.length - 1))

/-- `db.query(User).filter(User.email == email).first()` — exact string
match on the stored `email` column. -/
def findUser (db : List StoredUser) (email : String) : Option StoredUser :=
  db.find? (fun u => u.email == email)

/-- In-place mutation of the first row matching `email`, as the ORM does
after `first()` returned that row. -/
def updateFirst (db : List StoredUser) (email : String) (f : StoredUser → StoredUser) :
    List StoredUser :=
  match db with
  | [] => []
  | u :: us => if u.email == email then f u :: us else u :: updateFirst us email f

/-- In-place mutation of the first row matching `user_id`. -/
def updateFirstById (db : List StoredUser) (user_id : Nat) (f : StoredUser → StoredUser) :
    List StoredUser :=
  match db with
  | [] => []
  | u :: us => if u.id == user_id then f u :: us else u :: updateFirstById us user_id f

/-- The mutation performed by the success branch of `/verify`:
`user.is_verified = True; user.updated_at = datetime.now()`. -/
def markVerified (now : Int) (u : StoredUser) : StoredUser :=
  { u with is_verified := true, updated_at := now }

/-- Outcome messages of the `/verify` endpoint. -/
inductive VerifyResult where
  | USER_NOT_FOUND
  | INVALID_TOKEN
  | ALREADY_VERIFIED
  | TOKEN_EXPIRED
  | SUCCESS
  deriving Repr, DecidableEq

/-- `verify_user` (`src/app/routes/users.py`, `/verify`): look the user up
by exact email, then test token mismatch, already-verified, expiry, in
that order; on success mark the row verified and stamp `updated_at`. -/
def verify_user (db : List StoredUser) (email token : String) (now : Int)
    (expiry_days : Nat) : VerifyResult × List StoredUser :=
  match findUser db email with
  | none => (.USER_NOT_FOUND, db)
  | some u =>
    if u.token != token then (.INVALID_TOKEN, db)
    else if u.is_verified then (.ALREADY_VERIFIED, db)
    else if is_token_expired u.token_created_at now expiry_days then (.TOKEN_EXPIRED, db)
    else (.SUCCESS, updateFirst db email (markVerified now))

/-- `verify_user_discord` (`src/app/routes/users.py`, `/verify-discord`):
rejects a request with a missing/empty field (`not all([...])` → HTTP 400,
modelled as `none`), then runs the same chain as `/verify`; the response
additionally echoes `discord_user_id` on success. -/
def verify_user_discord (db : List StoredUser) (email token discord_user_id : String)
    (now : Int) (expiry_days : Nat) :
    Option ((VerifyResult × Option String) × List StoredUser) :=
  if email = "" ∨ token = "" ∨ discord_user_id = "" then none
  else
    match findUser db email with
    | none => some ((.USER_NOT_FOUND, none), db)
    | some u =>
      if u.token != token then some ((.INVALID_TOKEN, none), db)
      else if u.is_verified then some ((.ALREADY_VERIFIED, none), db)
      else if is_token_expired u.token_created_at now expiry_days then
        some ((.TOKEN_EXPIRED, none), db)
      else some ((.SUCCESS, some discord_user_id), updateFirst db email (markVerified now))

/-- The mutation performed by `/refresh-token`: `user.token = new_token;
user.token_created_at = now; user.updated_at = now`. -/
def refreshUpdate (tok : String) (now : Int) (u : StoredUser) : StoredUser :=
  { u with token := tok, token_created_at := now, updated_at := now }

/-- `refresh_token` (`src/app/routes/users.py`, `/refresh-token/{user_id}`):
404 (`none`) when no row has the id; otherwise store a freshly generated
token and stamp `token_created_at` and `updated_at`.  `rng` feeds the
`generate_token()` call. -/
def refresh_token (db : List StoredUser) (user_id : Nat) (rng : List Nat) (now : Int) :
    Option (String × List StoredUser) :=
  match db.find? (fun u => u.id == user_id) with
  | none => none
  | some _ =>
    let newTok := generate_token rng TOKEN_LENGTH_DEFAULT
    some (newTok, updateFirstById db user_id (refreshUpdate newTok now))

/-- Guild-side state of the bot (`src/discord_bot/bot.py`):
`pending_verifications` as an association list `user_id ↦ join_time`
(a Python dict, so keys are unique), the log of kicks issued so far, and
the two role membership lists. -/
structure GuildState where
  pending : List (Nat × Int)
  kicked : List Nat
  memberRole : List Nat
  unverifiedRole : List Nat
  deriving Repr, DecidableEq

/-- `VerificationView.on_timeout`: if the user is still pending, kick them
(when the guild still resolves the member) and drop the entry; otherwise
do nothing. -/
def timeoutStep (u : Nat) (present : Bool) (g : GuildState) : GuildState :=
  if (g.pending.find? (fun p => p.1 == u)).isSome then
    { g with pending := g.pending.filter (fun p => p.1 != u),
             kicked := if present then u :: g.kicked else g.kicked }
  else g

/-- `cleanup_expired_verifications`: collect entries whose join time is
more than `limit` seconds before `now`, kick each member the guild still
resolves, and delete every collected entry. -/
def sweepStep (now limit : Int) (present : Nat → Bool) (g : GuildState) : GuildState :=
  let expired := g.pending.filter (fun p => decide (limit < now - p.2))
  { g with pending := g.pending.filter (fun p => !(decide (limit < now - p.2))),
           kicked := (expired.filter (fun p => present p.1)).map (fun p => p.1) ++ g.kicked }

/-- Removal of a pending entry without a kick: the success branch of
`VerificationModal.on_submit` and the admin `force_verify` command both do
`if user_id in pending_verifications: del pending_verifications[user_id]`. -/
def clearStep (u : Nat) (g : GuildState) : GuildState :=
  { g with pending := g.pending.filter (fun p => p.1 != u) }

/-- The bot events relevant to eviction of a pending member. -/
inductive BotEvent where
  | timeout (u : Nat) (present : Bool)
  | sweep (now limit : Int) (present : Nat → Bool)
  | clear (u : Nat)

/-- One event applied to the guild state. -/
def botStep : BotEvent → GuildState → GuildState
  | .timeout u present, g => timeoutStep u present g
  | .sweep now limit present, g => sweepStep now limit present g
  | .clear u, g => clearStep u g

/-- A sequence of events applied in order. -/
def runEvents (evts : List BotEvent) (g : GuildState) : GuildState :=
  evts.foldl (fun s e => botStep e s) g

/-- Outcomes of a button click or a modal submission. -/
inductive InteractionResult where
  | notForYou
  | modalOpened
  | verified
  | removed (r : VerifyResult)
  deriving Repr, DecidableEq

/-- `VerificationView.verify_button`: a click by anyone but the intended
member is answered with an ephemeral refusal and nothing else; the
intended member gets the modal.  Neither branch touches the store or the
guild state. -/
def verify_button (actor user_id : Nat) (db : List StoredUser) (g : GuildState) :
    InteractionResult × List StoredUser × GuildState :=
  if actor != user_id then (.notForYou, db, g)
  else (.modalOpened, db, g)

/-- `VerificationModal.on_submit`: a submission by anyone but the intended
member is refused with no further effect.  The member's own submission is
verified through `/verify-discord`; success grants the member role,
removes the unverified role and the pending entry; failure kicks and
removes the pending entry. -/
def on_submit (actor user_id : Nat) (email token : String) (now : Int)
    (expiry_days : Nat) (db : List StoredUser) (g : GuildState) :
    InteractionResult × List StoredUser × GuildState :=
  if actor != user_id then (.notForYou, db, g)
  else
    let res := verify_user db email token now expiry_days
    if res.1 = .SUCCESS then
      (.verified, res.2,
        { g with memberRole := user_id :: g.memberRole,
                 unverifiedRole := g.unverifiedRole.filter (fun v => v != user_id),
                 pending := g.pending.filter (fun p => p.1 != user_id) })
    else
      (.removed res.1, res.2,
        { g with kicked := user_id :: g.kicked,
                 pending := g.pending.filter (fun p => p.1 != user_id) })

/-- Invariant tying evictions of member `u` to the pending map: the dict
keys are unique, `u` has been kicked at most once, and as long as `u` is
still pending they have not been kicked at all. -/
def KickInv (u : Nat) (g : GuildState) : Prop :=
  (g.pending.map Prod.fst).Nodup ∧ g.kicked.count u ≤ 1 ∧
    (u ∈ g.pending.map Prod.fst → g.kicked.count u = 0)

/-- A sample guild state with one pending member, used to instantiate the
theorems below. -/
def sampleGuild : GuildState :=
  { pending := [(1, 0)], kicked := [], memberRole := [], unverifiedRole := [] }

/-- A sample stored row, used to instantiate the theorems below. -/
def sampleUser : StoredUser :=
  { id := 1, email := "alice@example.com", name := "Alice", college := "State",
    branch := "CSE", year := "2", token := "TOK123", is_verified := false,
    token_created_at := 0, created_at := 0, updated_at := 0 }

theorem drop_pred {α : Type} : ∀ (l : List α), l ≠ [] →
    ∃ b, l.getLast? = some b ∧ l.drop (l.length - 1) = [b] := by
  intro l
  induction l with
  | nil => intro h; exact absurd rfl h
  | cons a l ih =>
    intro _
    cases l with
    | nil => exact ⟨a, rfl, rfl⟩
    | cons c l' =>
      obtain ⟨b, hb, hd⟩ := ih (by simp)
      refine ⟨b, by rw [List.getLast?_cons_cons]; exact hb, ?_⟩
      have hlen : (a :: c :: l').length - 1 = (c :: l').length := by simp
      rw [hlen]
      have : (c :: l').length = ((c :: l').length - 1) + 1 := by simp
      rw [this, List.drop_succ_cons]
      exact hd

theorem findUser_updateFirst (db : List StoredUser) (e : String)
    (f : StoredUser → StoredUser) (hf : ∀ u, (f u).email = u.email) :
    findUser (updateFirst db e f) e = Option.map f (findUser db e) := by
  induction db with
  | nil => rfl
  | cons u us ih =>
    by_cases h : u.email == e
    · show findUser (if u.email == e then f u :: us else u :: updateFirst us e f) e
        = Option.map f (findUser (u :: us) e)
      rw [if_pos h]
      show List.find? (fun v => v.email == e) (f u :: us)
        = Option.map f (List.find? (fun v => v.email == e) (u :: us))
      simp [List.find?_cons, hf, h]
    · show findUser (if u.email == e then f u :: us else u :: updateFirst us e f) e
        = Option.map f (findUser (u :: us) e)
      rw [if_neg h]
      show List.find? (fun v => v.email == e) (u :: updateFirst us e f)
        = Option.map f (List.find? (fun v => v.email == e) (u :: us))
      have hb : (u.email == e) = false := by
        exact Bool.not_eq_true _ ▸ eq_false_of_ne_true h
      simp only [List.find?_cons, hb]
      exact ih

theorem length_updateFirstById (db : List StoredUser) (uid : Nat)
    (f : StoredUser → StoredUser) :
    (updateFirstById db uid f).length = db.length := by
  induction db with
  | nil => rfl
  | cons u us ih =>
    unfold updateFirstById
    by_cases h : u.id == uid <;> simp [h, ih]

theorem updateFirstById_get? (db : List StoredUser) (uid : Nat)
    (f : StoredUser → StoredUser) (u : StoredUser)
    (hu : db.find? (fun v => v.id == uid) = some u) :
    ∃ i, db.get? i = some u ∧ (updateFirstById db uid f).get? i = some (f u) ∧
      ∀ j, j ≠ i → (updateFirstById db uid f).get? j = db.get? j := by
  induction db with
  | nil => simp at hu
  | cons w ws ih =>
    by_cases h : w.id == uid
    · have hfw : List.find? (fun v => v.id == uid) (w :: ws) = some w := by
        simp [List.find?_cons, h]
      rw [hfw] at hu
      have hw : u = w := (Option.some.inj hu).symm
      refine ⟨0, by rw [hw]; rfl, ?_, ?_⟩
      · show (if w.id == uid then f w :: ws
            else w :: updateFirstById ws uid f).get? 0 = some (f u)
        rw [if_pos h, hw]
        rfl
      · intro j hj
        show (if w.id == uid then f w :: ws
            else w :: updateFirstById ws uid f).get? j = (w :: ws).get? j
        rw [if_pos h]
        cases j with
        | zero => exact absurd rfl hj
        | succ k => rfl
    · have hfw : List.find? (fun v => v.id == uid) (w :: ws) =
          List.find? (fun v => v.id == uid) ws := by
        simp [List.find?_cons, h]
      rw [hfw] at hu
      obtain ⟨i, h1, h2, h3⟩ := ih hu
      refine ⟨i + 1, ?_, ?_, ?_⟩
      · exact h1
      · show (if w.id == uid then f w :: ws
            else w :: updateFirstById ws uid f).get? (i + 1) = some (f u)
        rw [if_neg h]
        exact h2
      · intro j hj
        show (if w.id == uid then f w :: ws
            else w :: updateFirstById ws uid f).get? j = (w :: ws).get? j
        rw [if_neg h]
        cases j with
        | zero => rfl
        | succ k => exact h3 k (fun hk => hj (by rw [hk]))

/-- C6: `is_token_expired` is true exactly when the current time is
strictly past `token_created_at + expiry_days` days; a token created at
`T` with a `D`-day window is still valid one second before `T + D` days
and expired one second after; the default window is 7 days. -/
theorem C6_expiry_boundary : ∀ (T now : Int) (D : Nat),
    (is_token_expired T now D = true ↔ T + (D : Int) * 86400 < now) ∧
    is_token_expired T (T + (D : Int) * 86400 - 1) D = false ∧
    is_token_expired T (T + (D : Int) * 86400 + 1) D = true ∧
    TOKEN_EXPIRY_DAYS_DEFAULT = 7 := by
  intro T now D
  refine ⟨by simp [is_token_expired], ?_, ?_, rfl⟩
  · simp only [is_token_expired, decide_eq_false_iff_not, not_lt]
    omega
  · simp only [is_token_expired, decide_eq_true_eq]
    omega

theorem C6_expiry_boundary_witness :
    is_token_expired 0 ((0 : Int) + (7 : Nat) * 86400 - 1) 7 = false ∧
    is_token_expired 0 ((0 : Int) + (7 : Nat) * 86400 + 1) 7 = true ∧
    is_token_expired 0 604799 7 = false ∧
    is_token_expired 0 604801 7 = true :=
  ⟨(C6_expiry_boundary 0 0 7).2.1, (C6_expiry_boundary 0 0 7).2.2.1,
    by decide, by decide⟩

/-- C10: `mask_token` keeps a token of length at most 2 unchanged and
keeps the length in every case; a longer token becomes its first
character, `length - 2` asterisks, and its last character. -/
theorem C10_mask_token : ∀ t : String,
    (mask_token t).length = t.length ∧
    (t.length ≤ 2 → mask_token t = t) ∧
    (2 < t.length → ∃ a b, t.data.head? = some a ∧ t.data.getLast? = some b ∧
      mask_token t = String.mk (a :: (List.replicate (t.length - 2) '*' ++ [b]))) := by
  intro t
  by_cases h : t.length ≤ 2
  · refine ⟨by simp [mask_token, h], fun _ => by simp [mask_token, h], fun h2 => absurd h2 (by omega)⟩
  · push_neg at h
    have hlen : t.data.length = t.length := rfl
    have hne : t.data ≠ [] := by
      intro hnil
      rw [← hlen] at h
      simp [hnil] at h
    obtain ⟨b, hb, hd⟩ := drop_pred t.data hne
    obtain ⟨a, l, hal⟩ : ∃ a l, t.data = a :: l := by
      cases hdata : t.data with
      | nil => exact absurd hdata hne
      | cons a l => exact ⟨a, l, rfl⟩
    have hmask : mask_token t = String.mk (t.data.take 1 ++ List.replicate (t.length - 2) '*'
        ++ t.data.drop (t.length - 1)) := by
      simp [mask_token, not_le.mpr h]
    have htake : t.data.take 1 = [a] := by rw [hal]; rfl
    refine ⟨?_, fun hc => by omega, fun _ => ⟨a, b, by rw [hal]; rfl, hb, ?_⟩⟩
    · rw [hmask]
      show (t.data.take 1 ++ List.replicate (t.length - 2) '*'
        ++ t.data.drop (t.length - 1)).length = t.length
      rw [← hlen] at h ⊢
      simp only [List.length_append, List.length_take, List.length_replicate,
        List.length_drop]
      omega
    · rw [hmask, htake, ← hlen, hd]
      simp

theorem C10_mask_token_witness :
    (mask_token "SECRET").length = ("SECRET" : String).length ∧
    mask_token "ab" = "ab" ∧
    (∃ a b, ("SECRET" : String).data.head? = some a ∧
      ("SECRET" : String).data.getLast? = some b ∧
      mask_token "SECRET" =
        String.mk (a :: (List.replicate (("SECRET" : String).length - 2) '*' ++ [b]))) :=
  ⟨(C10_mask_token "SECRET").1, (C10_mask_token "ab").2.1 (by decide),
    (C10_mask_token "SECRET").2.2 (by decide)⟩

/-- C4 (amended): every token produced by `generate_token` at the default
length has exactly 6 characters, each drawn from the uppercase-plus-digits
alphabet. -/
theorem C4_token_shape : ∀ (rng : List Nat),
    (generate_token rng TOKEN_LENGTH_DEFAULT).length = 6 ∧
    ∀ c ∈ (generate_token rng TOKEN_LENGTH_DEFAULT).data, c ∈ TOKEN_ALPHABET := by
  intro rng
  constructor
  · show ((List.range TOKEN_LENGTH_DEFAULT).map _).length = 6
    simp [TOKEN_LENGTH_DEFAULT]
  · intro c hc
    show c ∈ TOKEN_ALPHABET
    simp only [generate_token, String.mk, List.mem_map] at hc
    obtain ⟨i, _, hi⟩ := hc
    have hlt : rng.getD i 0 % 36 < TOKEN_ALPHABET.length := by
      have h36 : TOKEN_ALPHABET.length = 36 := by decide
      rw [h36]
      exact Nat.mod_lt _ (by omega)
    rw [← hi, List.getD_eq_getElem _ _ hlt]
    exact List.getElem_mem hlt

theorem C4_token_shape_witness :
    (generate_token [1, 2, 3, 4, 5, 6] TOKEN_LENGTH_DEFAULT).length = 6 ∧
    'B' ∈ TOKEN_ALPHABET :=
  ⟨(C4_token_shape [1, 2, 3, 4, 5, 6]).1,
    (C4_token_shape [1, 2, 3, 4, 5, 6]).2 'B' (by decide)⟩

/-- C4 counterexample: two draw sequences the PRNG can produce yield the
same 6-character token, and that token can already sit in the store —
`generate_token` never consults the store and never regenerates, so the
claimed store-wide uniqueness fails. -/
theorem C4_counterexample :
    generate_token [0, 0, 0, 0, 0, 0] TOKEN_LENGTH_DEFAULT = "AAAAAA" ∧
    generate_token [36, 36, 36, 36, 36, 36] TOKEN_LENGTH_DEFAULT = "AAAAAA" ∧
    "AAAAAA" ∈ ([{ sampleUser with token := "AAAAAA" }] : List StoredUser).map
      (fun u => u.token) := by
  refine ⟨by decide, by decide, by simp⟩

/-- C5 (amended): email lookup in `/verify` is an exact string match —
a user is found exactly when some stored row's email equals the submitted
string character for character; no lower-casing or trimming happens, so a
case or whitespace variant of a stored email is not found. -/
theorem C5_exact_match : ∀ (db : List StoredUser) (e t : String) (now : Int) (days : Nat),
    ((findUser db e).isSome ↔ ∃ u ∈ db, u.email = e) ∧
    ((∀ u ∈ db, u.email ≠ e) → verify_user db e t now days = (.USER_NOT_FOUND, db)) := by
  intro db e t now days
  constructor
  · simp [findUser, List.find?_isSome]
  · intro h
    have hnone : findUser db e = none := by
      simp only [findUser, List.find?_eq_none]
      intro u hu
      simpa using h u hu
    simp [verify_user, hnone]

theorem C5_exact_match_witness :
    verify_user [sampleUser] "ALICE@EXAMPLE.COM" "TOK123" 5 7 =
      (.USER_NOT_FOUND, [sampleUser]) :=
  (C5_exact_match [sampleUser] "ALICE@EXAMPLE.COM" "TOK123" 5 7).2 (by decide)

/-- C5 counterexample: the store holds `alice@example.com` with a correct,
fresh, unverified token, yet `/verify` with the upper-cased email returns
"user not found" instead of finding the same user. -/
theorem C5_counterexample :
    (verify_user [sampleUser] "ALICE@EXAMPLE.COM" "TOK123" 5 7).1 = .USER_NOT_FOUND ∧
    (verify_user [sampleUser] "alice@example.com" "TOK123" 5 7).1 = .SUCCESS := by
  exact ⟨by decide, by decide⟩

/-- C1: `/verify` decides by the first matching rule, in order: unknown
email → user not found; stored token differs from the submitted one
(exact string comparison) → invalid token; already verified → already
verified; expired token → token expired; otherwise the row is marked
verified with `updated_at` stamped and the call succeeds. -/
theorem C1_decision_order : ∀ (db : List StoredUser) (e t : String) (now : Int) (days : Nat),
    (findUser db e = none → verify_user db e t now days = (.USER_NOT_FOUND, db)) ∧
    ∀ u, findUser db e = some u →
      (u.token ≠ t → verify_user db e t now days = (.INVALID_TOKEN, db)) ∧
      (u.token = t → u.is_verified = true →
        verify_user db e t now days = (.ALREADY_VERIFIED, db)) ∧
      (u.token = t → u.is_verified = false →
        is_token_expired u.token_created_at now days = true →
        verify_user db e t now days = (.TOKEN_EXPIRED, db)) ∧
      (u.token = t → u.is_verified = false →
        is_token_expired u.token_created_at now days = false →
        verify_user db e t now days = (.SUCCESS, updateFirst db e (markVerified now))) := by
  intro db e t now days
  constructor
  · intro hn
    simp [verify_user, hn]
  · intro u hu
    refine ⟨fun hne => ?_, fun ht hver => ?_, fun ht hver hexp => ?_, fun ht hver hexp => ?_⟩
    · simp [verify_user, hu, bne_iff_ne, hne]
    · simp [verify_user, hu, ht, hver]
    · simp [verify_user, hu, ht, hver, hexp]
    · simp [verify_user, hu, ht, hver, hexp]

theorem C1_decision_order_witness :
    verify_user [sampleUser] "alice@example.com" "TOK123" 5 7 =
      (.SUCCESS, [{ sampleUser with is_verified := true, updated_at := 5 }]) := by
  have h := ((C1_decision_order [sampleUser] "alice@example.com" "TOK123" 5 7).2
    sampleUser (by decide)).2.2.2 rfl rfl (by decide)
  rw [h]
  decide

/-- C7: with all three fields present, `/verify-discord` returns the same
decision and performs the same store update as `/verify` on the same
email and token; the Discord user id is only echoed back on success and
never influences the decision or the store. -/
theorem C7_discord_refines_verify : ∀ (db : List StoredUser) (e t pid : String)
    (now : Int) (days : Nat), e ≠ "" → t ≠ "" → pid ≠ "" →
    verify_user_discord db e t pid now days =
      some (((verify_user db e t now days).1,
             if (verify_user db e t now days).1 = .SUCCESS then some pid else none),
            (verify_user db e t now days).2) := by
  intro db e t pid now days he ht hp
  unfold verify_user_discord verify_user
  rw [if_neg (by simp [he, ht, hp])]
  cases hf : findUser db e with
  | none => simp
  | some u =>
    by_cases h1 : u.token != t
    · simp [h1]
    · simp only [h1, if_false, Bool.false_eq_true]
      by_cases h2 : u.is_verified
      · simp [h2]
      · simp only [h2, if_false, Bool.false_eq_true]
        by_cases h3 : is_token_expired u.token_created_at now days
        · simp [h3]
        · simp [h3]

theorem C7_discord_refines_verify_witness :
    verify_user_discord [sampleUser] "alice@example.com" "TOK123" "424242" 5 7 =
      some ((.SUCCESS, some "424242"),
        [{ sampleUser with is_verified := true, updated_at := 5 }]) := by
  have h := C7_discord_refines_verify [sampleUser] "alice@example.com" "TOK123" "424242"
    5 7 (by decide) (by decide) (by decide)
  rw [h]
  decide

/-- C2: a successful `/verify` is not repeatable — the second identical
call answers "already verified" and leaves the store as the first call
left it; a failing `/verify` leaves the store untouched, so repeating the
same failing call at the same or any later time yields the same reason
code. -/
theorem C2_idempotence : ∀ (db : List StoredUser) (e t : String) (now now2 : Int)
    (days : Nat),
    ((verify_user db e t now days).1 = .SUCCESS →
      verify_user (verify_user db e t now days).2 e t now2 days =
        (.ALREADY_VERIFIED, (verify_user db e t now days).2)) ∧
    ((verify_user db e t now days).1 ≠ .SUCCESS → now ≤ now2 →
      (verify_user db e t now days).2 = db ∧
      verify_user db e t now2 days = verify_user db e t now days) := by
  intro db e t now now2 days
  constructor
  · intro hs
    have hs' := hs
    unfold verify_user at hs'
    cases hf : findUser db e with
    | none => rw [hf] at hs'; simp at hs'
    | some u =>
      rw [hf] at hs'
      by_cases h1 : u.token != t
      · simp [h1] at hs'
      · simp only [h1, if_false, Bool.false_eq_true] at hs'
        by_cases h2 : u.is_verified
        · simp [h2] at hs'
        · simp only [h2, if_false, Bool.false_eq_true] at hs'
          by_cases h3 : is_token_expired u.token_created_at now days
          · simp [h3] at hs'
          · have hcall : verify_user db e t now days =
                (.SUCCESS, updateFirst db e (markVerified now)) := by
              simp [verify_user, hf, h1, h2, h3]
            have hfind : findUser (updateFirst db e (markVerified now)) e =
                some (markVerified now u) := by
              rw [findUser_updateFirst db e (markVerified now) (fun v => rfl), hf]
              rfl
            have htok : u.token = t := by simpa using h1
            rw [hcall]
            show verify_user (updateFirst db e (markVerified now)) e t now2 days = _
            unfold verify_user
            rw [hfind]
            simp [markVerified, htok]
  · intro hfail hle
    unfold verify_user at hfail ⊢
    cases hf : findUser db e with
    | none => exact ⟨rfl, rfl⟩
    | some u =>
      rw [hf] at hfail
      by_cases h1 : u.token != t
      · simp [h1]
      · simp only [h1, if_false, Bool.false_eq_true] at hfail ⊢
        by_cases h2 : u.is_verified
        · simp [h2]
        · simp only [h2, if_false, Bool.false_eq_true] at hfail ⊢
          by_cases h3 : is_token_expired u.token_created_at now days
          · have h3' : is_token_expired u.token_created_at now2 days = true := by
              simp only [is_token_expired, decide_eq_true_eq] at h3 ⊢
              omega
            simp [h3, h3']
          · simp [h3] at hfail

theorem C2_idempotence_witness :
    verify_user (verify_user [sampleUser] "alice@example.com" "TOK123" 5 7).2
        "alice@example.com" "TOK123" 6 7 =
      (.ALREADY_VERIFIED, (verify_user [sampleUser] "alice@example.com" "TOK123" 5 7).2) :=
  (C2_idempotence [sampleUser] "alice@example.com" "TOK123" 5 6 7).1 (by decide)

/-- C3 counterexample: refreshing the token of an already-verified user
leaves `is_verified` equal to `true` — `/refresh-token` never writes that
column, so the claimed reset to `false` does not happen. -/
theorem C3_counterexample :
    (refresh_token [{ sampleUser with is_verified := true }] 1 [1, 2, 3, 4, 5, 6] 100).map
      (fun r => r.2.map (fun u => u.is_verified)) = some [true] := by decide

/-- C3 (amended): for an existing user id, `/refresh-token` returns the
freshly generated token, and in the resulting store the found row — at
its original position — now carries that token with `token_created_at`
and `updated_at` stamped to the current time, every other column of that
row (`is_verified` included) keeps its prior value, and every row at any
other position is exactly as before. -/
theorem C3_refresh_updates : ∀ (db : List StoredUser) (uid : Nat) (rng : List Nat)
    (now : Int) (u : StoredUser),
    db.find? (fun v => v.id == uid) = some u →
    ∃ tok db' i, refresh_token db uid rng now = some (tok, db') ∧
      tok = generate_token rng TOKEN_LENGTH_DEFAULT ∧
      db'.length = db.length ∧
      db.get? i = some u ∧
      (∃ v, db'.get? i = some v ∧
        v.token = tok ∧ v.token_created_at = now ∧ v.updated_at = now ∧
        v.is_verified = u.is_verified ∧ v.email = u.email ∧ v.name = u.name ∧
        v.college = u.college ∧ v.branch = u.branch ∧ v.year = u.year ∧
        v.id = u.id ∧ v.created_at = u.created_at) ∧
      ∀ j, j ≠ i → db'.get? j = db.get? j := by
  intro db uid rng now u hu
  obtain ⟨i, h1, h2, h3⟩ := updateFirstById_get? db uid
    (refreshUpdate (generate_token rng TOKEN_LENGTH_DEFAULT) now) u hu
  refine ⟨generate_token rng TOKEN_LENGTH_DEFAULT,
    updateFirstById db uid (refreshUpdate (generate_token rng TOKEN_LENGTH_DEFAULT) now),
    i, ?_, rfl, length_updateFirstById db uid _, h1,
    ⟨refreshUpdate (generate_token rng TOKEN_LENGTH_DEFAULT) now u, h2,
      rfl, rfl, rfl, rfl, rfl, rfl, rfl, rfl, rfl, rfl, rfl⟩, h3⟩
  unfold refresh_token
  rw [hu]

theorem C3_refresh_updates_witness :
    ∃ tok db' i, refresh_token [sampleUser] 1 [1, 2, 3, 4, 5, 6] 100 = some (tok, db') ∧
      tok = generate_token [1, 2, 3, 4, 5, 6] TOKEN_LENGTH_DEFAULT ∧
      db'.length = ([sampleUser] : List StoredUser).length ∧
      ([sampleUser] : List StoredUser).get? i = some sampleUser ∧
      (∃ v, db'.get? i = some v ∧
        v.token = tok ∧ v.token_created_at = 100 ∧ v.updated_at = 100 ∧
        v.is_verified = sampleUser.is_verified ∧ v.email = sampleUser.email ∧
        v.name = sampleUser.name ∧ v.college = sampleUser.college ∧
        v.branch = sampleUser.branch ∧ v.year = sampleUser.year ∧
        v.id = sampleUser.id ∧ v.created_at = sampleUser.created_at) ∧
      ∀ j, j ≠ i → db'.get? j = ([sampleUser] : List StoredUser).get? j :=
  C3_refresh_updates [sampleUser] 1 [1, 2, 3, 4, 5, 6] 100 sampleUser (by decide)

/-- C9: a button click or a modal submission by any actor other than the
joining member is answered with a refusal and changes nothing: the store,
the pending entries, the kick log and both role lists all stay exactly as
they were. -/
theorem C9_foreign_actor_rejected : ∀ (actor uid : Nat) (e t : String) (now : Int)
    (days : Nat) (db : List StoredUser) (g : GuildState),
    actor ≠ uid →
    on_submit actor uid e t now days db g = (.notForYou, db, g) ∧
    verify_button actor uid db g = (.notForYou, db, g) := by
  intro actor uid e t now days db g hne
  have hb : (actor != uid) = true := by simpa using hne
  exact ⟨by simp [on_submit, hb], by simp [verify_button, hb]⟩

theorem C9_foreign_actor_rejected_witness :
    on_submit 2 1 "alice@example.com" "TOK123" 5 7 [sampleUser]
        { pending := [(1, 0)], kicked := [], memberRole := [], unverifiedRole := [1] } =
      (.notForYou, [sampleUser],
        { pending := [(1, 0)], kicked := [], memberRole := [], unverifiedRole := [1] }) ∧
    verify_button 2 1 [sampleUser]
        { pending := [(1, 0)], kicked := [], memberRole := [], unverifiedRole := [1] } =
      (.notForYou, [sampleUser],
        { pending := [(1, 0)], kicked := [], memberRole := [], unverifiedRole := [1] }) :=
  C9_foreign_actor_rejected 2 1 "alice@example.com" "TOK123" 5 7 [sampleUser]
    { pending := [(1, 0)], kicked := [], memberRole := [], unverifiedRole := [1] }
    (by decide)

theorem kickInv_timeoutStep (v : Nat) (present : Bool) (u : Nat) (g : GuildState)
    (h : KickInv u g) : KickInv u (timeoutStep v present g) := by
  obtain ⟨hnd, hle, hz⟩ := h
  unfold timeoutStep
  by_cases hf : (g.pending.find? (fun p => p.1 == v)).isSome
  · rw [if_pos hf]
    have hsub : List.Sublist ((g.pending.filter (fun p => p.1 != v)).map Prod.fst)
        (g.pending.map Prod.fst) :=
      List.Sublist.map Prod.fst (List.filter_sublist g.pending)
    have hmem : ∀ w ∈ (g.pending.filter (fun p => p.1 != v)).map Prod.fst,
        w ∈ g.pending.map Prod.fst ∧ w ≠ v := by
      intro w hw
      rcases List.mem_map.mp hw with ⟨p, hp, hpw⟩
      rcases List.mem_filter.mp hp with ⟨hp1, hp2⟩
      exact ⟨List.mem_map.mpr ⟨p, hp1, hpw⟩, by rw [← hpw]; simpa using hp2⟩
    refine ⟨hnd.sublist hsub, ?_, ?_⟩
    · by_cases hpres : present
      · simp only [hpres, if_true]
        by_cases hvu : v = u
        · have hu : u ∈ g.pending.map Prod.fst := by
            rcases List.find?_isSome.mp hf with ⟨p, hp, hpeq⟩
            refine List.mem_map.mpr ⟨p, hp, ?_⟩
            have hpv : p.1 = v := by simpa using hpeq
            rw [hpv, hvu]
          rw [hvu, List.count_cons_self, hz hu]
        · rw [List.count_cons_of_ne (fun hc => hvu hc.symm)]
          exact hle
      · simp only [hpres, if_false]
        exact hle
    · intro hu
      rcases hmem u hu with ⟨hu1, hu2⟩
      by_cases hpres : present
      · simp only [hpres, if_true]
        rw [List.count_cons_of_ne hu2]
        exact hz hu1
      · simp only [hpres, if_false]
        exact hz hu1
  · rw [if_neg hf]
    exact ⟨hnd, hle, hz⟩

theorem kickInv_sweepStep (now limit : Int) (present : Nat → Bool) (u : Nat)
    (g : GuildState) (h : KickInv u g) : KickInv u (sweepStep now limit present g) := by
  obtain ⟨hnd, hle, hz⟩ := h
  have hsubKeep : List.Sublist
      ((g.pending.filter (fun p => !(decide (limit < now - p.2)))).map Prod.fst)
      (g.pending.map Prod.fst) :=
    List.Sublist.map Prod.fst (List.filter_sublist g.pending)
  have hsubKick : List.Sublist
      (((g.pending.filter (fun p => decide (limit < now - p.2))).filter
        (fun p => present p.1)).map Prod.fst)
      (g.pending.map Prod.fst) :=
    List.Sublist.map Prod.fst
      ((List.filter_sublist _).trans (List.filter_sublist g.pending))
  refine ⟨hnd.sublist hsubKeep, ?_, ?_⟩
  · show (((g.pending.filter _).filter _).map Prod.fst ++ g.kicked).count u ≤ 1
    rw [List.count_append]
    by_cases hu : u ∈ g.pending.map Prod.fst
    · have h1 : (((g.pending.filter (fun p => decide (limit < now - p.2))).filter
          (fun p => present p.1)).map Prod.fst).count u ≤ 1 :=
        le_trans (hsubKick.count_le u) (List.nodup_iff_count_le_one.mp hnd u)
      have h2 := hz hu
      omega
    · have h1 : (((g.pending.filter (fun p => decide (limit < now - p.2))).filter
          (fun p => present p.1)).map Prod.fst).count u = 0 :=
        List.count_eq_zero.mpr (fun hc => hu (hsubKick.subset hc))
      omega
  · intro hu
    rcases List.mem_map.mp hu with ⟨p, hp, hpu⟩
    rcases List.mem_filter.mp hp with ⟨hp1, hp2⟩
    have hukeys : u ∈ g.pending.map Prod.fst := List.mem_map.mpr ⟨p, hp1, hpu⟩
    show (((g.pending.filter _).filter _).map Prod.fst ++ g.kicked).count u = 0
    rw [List.count_append, hz hukeys]
    have h1 : (((g.pending.filter (fun p => decide (limit < now - p.2))).filter
        (fun p => present p.1)).map Prod.fst).count u = 0 := by
      refine List.count_eq_zero.mpr (fun hc => ?_)
      rcases List.mem_map.mp hc with ⟨q, hq, hqu⟩
      rcases List.mem_filter.mp hq with ⟨hq1, _⟩
      rcases List.mem_filter.mp hq1 with ⟨hq2, hq3⟩
      have hpq : p = q :=
        List.inj_on_of_nodup_map hnd hp1 hq2 (by rw [hpu, hqu])
      rw [← hpq] at hq3
      simp only [Bool.not_eq_true'] at hp2
      rw [hp2] at hq3
      exact Bool.false_ne_true hq3
    omega

theorem kickInv_clearStep (v : Nat) (u : Nat) (g : GuildState)
    (h : KickInv u g) : KickInv u (clearStep v g) := by
  obtain ⟨hnd, hle, hz⟩ := h
  have hsub : List.Sublist ((g.pending.filter (fun p => p.1 != v)).map Prod.fst)
      (g.pending.map Prod.fst) :=
    List.Sublist.map Prod.fst (List.filter_sublist g.pending)
  refine ⟨hnd.sublist hsub, hle, ?_⟩
  intro hu
  exact hz (hsub.subset hu)

theorem kickInv_botStep (e : BotEvent) (u : Nat) (g : GuildState)
    (h : KickInv u g) : KickInv u (botStep e g) := by
  cases e with
  | timeout v present => exact kickInv_timeoutStep v present u g h
  | sweep now limit present => exact kickInv_sweepStep now limit present u g h
  | clear v => exact kickInv_clearStep v u g h

theorem kickInv_runEvents (evts : List BotEvent) (u : Nat) (g : GuildState)
    (h : KickInv u g) : KickInv u (runEvents evts g) := by
  induction evts generalizing g with
  | nil => exact h
  | cons e es ih => exact ih (botStep e g) (kickInv_botStep e u g h)

/-- C8: the timeout callback finding the pending entry already cleared
(by the sweep, a successful verification, or an admin override) changes
nothing — removal of an absent member is a no-op — and along any sequence
of timeouts, sweeps and entry clearings the member is evicted at most
once. -/
theorem C8_single_eviction : ∀ (u : Nat) (present : Bool) (g : GuildState)
    (evts : List BotEvent),
    ((g.pending.find? (fun p => p.1 == u)).isSome = false →
      timeoutStep u present g = g) ∧
    ((g.pending.map Prod.fst).Nodup → g.kicked = [] →
      (runEvents evts g).kicked.count u ≤ 1) := by
  intro u present g evts
  constructor
  · intro hnone
    unfold timeoutStep
    rw [if_neg (by simp [hnone])]
  · intro hnd hk
    have hinv : KickInv u g := ⟨hnd, by simp [hk], fun _ => by simp [hk]⟩
    exact (kickInv_runEvents evts u g hinv).2.1

theorem C8_single_eviction_witness :
    timeoutStep 7 true sampleGuild = sampleGuild ∧
    (runEvents [.timeout 1 true, .timeout 1 true, .sweep 1000 300 (fun _ => true)]
      sampleGuild).kicked.count 1 ≤ 1 :=
  ⟨(C8_single_eviction 7 true sampleGuild []).1 (by decide),
    (C8_single_eviction 1 true sampleGuild
      [.timeout 1 true, .timeout 1 true, .sweep 1000 300 (fun _ => true)]).2
      (by decide) rfl⟩

end DiscordBot
